import Mathlib

set_option maxRecDepth 8000

/-!
Shallow embedding of `src/chart.py` (a Streamlit finance dashboard) and proofs
about its numeric-formatting functions, its chart-URL builder, and its
per-ticker orchestration loop.

Numbers flowing through the Python formatters are embedded as exact rationals
(`ℚ`); Python's fixed-point rendering `f"{x:.pf}"` is embedded as rounding
`x * 10^p` to an integer with ties-to-even (the rounding used by Python float
formatting) followed by decimal digit printing.  The width-3 minimum in the
source's `f"{number:3.1f}"` never pads, because the shortest possible
rendering "0.0" is already three characters wide, so it is omitted here.
-/

namespace Chart

/-- Round a rational to the nearest integer, ties to even; this is the
rounding performed by Python's fixed-point float formatting. -/
def rnd (x : ℚ) : ℤ :=
  if Int.fract x < 1/2 then ⌊x⌋
  else if 1/2 < Int.fract x then ⌊x⌋ + 1
  else if ⌊x⌋ % 2 = 0 then ⌊x⌋ else ⌊x⌋ + 1

/-- Decimal digits of a natural number, most significant first; the first
argument is structural fuel so that the definition evaluates by kernel
reduction. -/
def natStrGo : Nat → Nat → List Char
  | 0, _ => []
  | f+1, n => if n < 10 then [Nat.digitChar n] else natStrGo f (n / 10) ++ [Nat.digitChar (n % 10)]

/-- Decimal rendering of a natural number. -/
def natStr (n : Nat) : String := ⟨natStrGo (n+1) n⟩

/-- Left-pad a string with zeros to the given width. -/
def padZeros (s : String) (w : Nat) : String := ⟨List.replicate (w - s.length) '0' ++ s.data⟩

/-- Embedding of Python's `f"{q:.precf}"`: fixed-point rendering of `q` with
`prec` fractional digits, rounding ties to even, the sign printed from the
sign of `q`. -/
def formatFixed (q : ℚ) (prec : Nat) : String :=
  (if q < 0 then "-" else "")
    ++ natStr ((rnd (q * (10:ℚ) ^ prec)).natAbs / 10 ^ prec)
    ++ "."
    ++ padZeros (natStr ((rnd (q * (10:ℚ) ^ prec)).natAbs % 10 ^ prec)) prec

/-- The suffix list `['', 'K', 'M', 'B', 'T']` iterated by `format_number`. -/
def unitsList : List String := ["", "K", "M", "B", "T"]

/-- The `for unit in [...]` loop of `format_number` in `src/chart.py`: if
`abs(number) < 1000` return `f"{number:3.1f}{unit}"`, otherwise divide by
1000 and continue; after the last unit return `f"{number:.1f}T"`. -/
def formatNumberGo : ℚ → List String → String
  | n, [] => formatFixed n 1 ++ "T"
  | n, u :: us => if |n| < 1000 then formatFixed n 1 ++ u else formatNumberGo (n / 1000) us

/-- `format_number` from `src/chart.py`; `none` is Python's `None`. -/
def format_number : Option ℚ → String
  | none => "N/A"
  | some n => formatNumberGo n unitsList

/-- `format_percentage` from `src/chart.py`. -/
def format_percentage : Option ℚ → String
  | none => "N/A"
  | some n => formatFixed (n * 100) 2 ++ "%"

/-- `format_pe_ratio` from `src/chart.py`. -/
def format_pe_ratio : Option ℚ → String
  | none => "N/A"
  | some n => formatFixed n 2 ++ "X"

/-- The chart URL built by `display_finviz_chart` in `src/chart.py`. -/
def finviz_url (ticker : String) : String :=
  "https://finviz.com/chart.ashx?t=" ++ ticker ++ "&ty=c&ta=st_1,ta_4&p=d&s=l"

end Chart

namespace Chart

/-- C9: the chart URL is built by substituting the ticker into a single fixed
template: there are fixed strings `p` and `s` with `finviz_url t = p ++ t ++ s`
for every ticker `t`, with no escaping or transformation of `t`. -/
theorem finviz_url_template : ∃ p s : String, ∀ t : String, finviz_url t = p ++ t ++ s :=
  ⟨"https://finviz.com/chart.ashx?t=", "&ty=c&ta=st_1,ta_4&p=d&s=l", fun _ => rfl⟩

/-- Witness for C9 at the concrete ticker "MSFT". -/
theorem finviz_url_template_witness :
    ∃ p s : String, finviz_url "MSFT" = p ++ "MSFT" ++ s :=
  match finviz_url_template with
  | ⟨p, s, h⟩ => ⟨p, s, h "MSFT"⟩

/-- Number of divisions by 1000 that `format_number`'s loop performs before
the stop condition `abs < 1000` holds, for inputs below the saturation
threshold. -/
def divCount (v : ℚ) : ℕ :=
  if |v| < 1000 then 0
  else if |v| < 1000^2 then 1
  else if |v| < 1000^3 then 2
  else if |v| < 1000^4 then 3
  else 4

lemma abs_div_pow (v : ℚ) (k : ℕ) : |v / 1000 ^ k| = |v| / 1000 ^ k := by
  rw [abs_div, abs_pow, abs_of_pos (show (0:ℚ) < 1000 by norm_num)]

lemma div_pow_succ (v : ℚ) (k : ℕ) : v / 1000 / 1000 ^ k = v / 1000 ^ (k + 1) := by
  rw [div_div, ← pow_succ']

lemma step_lt {v : ℚ} {u : String} {us : List String} (h : |v| < 1000) :
    formatNumberGo v (u :: us) = formatFixed v 1 ++ u := by
  simp only [formatNumberGo, if_pos h]

lemma step_ge {v : ℚ} {u : String} {us : List String} (h : ¬ |v| < 1000) :
    formatNumberGo v (u :: us) = formatNumberGo (v / 1000) us := by
  simp only [formatNumberGo, if_neg h]

/-- If every check in the loop fails, the loop falls through to the final
`f"{number:.1f}T"` with the value divided by 1000 once per unit. -/
lemma go_all_ge (us : List String) (v : ℚ)
    (h : ∀ k, k < us.length → ¬ |v / 1000 ^ k| < 1000) :
    formatNumberGo v us = formatFixed (v / 1000 ^ us.length) 1 ++ "T" := by
  induction us generalizing v with
  | nil => simp [formatNumberGo]
  | cons u us ih =>
    have h0 : ¬ |v| < 1000 := by
      have := h 0 (by simp)
      simpa using this
    rw [step_ge h0, ih (v / 1000) ?_]
    · rw [div_pow_succ]
      rfl
    · intro k hk
      rw [div_pow_succ]
      exact h (k + 1) (by simpa using Nat.succ_lt_succ hk)

/-- If the loop's stop condition first holds after `i` divisions, the loop
returns the `i`-times-divided value rendered with the `i`-th unit. -/
lemma go_spec (us : List String) (v : ℚ) (i : ℕ) (hi : i < us.length)
    (hlt : |v / 1000 ^ i| < 1000) (hge : ∀ j, j < i → 1000 ≤ |v / 1000 ^ j|) :
    formatNumberGo v us = formatFixed (v / 1000 ^ i) 1 ++ us.getD i "" := by
  induction us generalizing v i with
  | nil => exact absurd hi (by simp)
  | cons u us ih =>
    cases i with
    | zero =>
      have h0 : |v| < 1000 := by simpa using hlt
      rw [step_lt h0]
      simp
    | succ i =>
      have h0 : ¬ |v| < 1000 := by
        have := hge 0 (Nat.succ_pos i)
        simp only [pow_zero, div_one] at this
        exact not_lt.mpr this
      rw [step_ge h0]
      have hlt' : |v / 1000 / 1000 ^ i| < 1000 := by rw [div_pow_succ]; exact hlt
      have hge' : ∀ j, j < i → 1000 ≤ |v / 1000 / 1000 ^ j| := by
        intro j hj
        rw [div_pow_succ]
        exact hge (j + 1) (Nat.succ_lt_succ hj)
      have := ih (v / 1000) i (by simpa using Nat.lt_of_succ_lt_succ hi) hlt' hge'
      rw [this, div_pow_succ]
      rfl

lemma divCount_le (v : ℚ) : divCount v ≤ 4 := by
  unfold divCount
  split_ifs <;> norm_num

lemma divCount_lt (v : ℚ) (h : |v| < 1000 ^ 5) : |v / 1000 ^ divCount v| < 1000 := by
  rw [abs_div_pow, div_lt_iff₀ (pow_pos (by norm_num) _)]
  unfold divCount
  split_ifs with h0 h1 h2 h3
  · simpa using h0
  · rw [← pow_succ']
    exact h1
  · rw [← pow_succ']
    exact h2
  · rw [← pow_succ']
    exact h3
  · rw [← pow_succ']
    exact h

lemma divCount_min (v : ℚ) : ∀ j, j < divCount v → 1000 ≤ |v / 1000 ^ j| := by
  intro j hj
  rw [abs_div_pow, le_div_iff₀ (pow_pos (by norm_num) _), ← pow_succ']
  unfold divCount at hj
  split_ifs at hj with h0 h1 h2 h3
  · omega
  · interval_cases j
    exact not_lt.mp (by simpa using h0)
  · interval_cases j
    · exact not_lt.mp (by simpa using h0)
    · exact not_lt.mp h1
  · interval_cases j
    · exact not_lt.mp (by simpa using h0)
    · exact not_lt.mp h1
    · exact not_lt.mp h2
  · interval_cases j
    · exact not_lt.mp (by simpa using h0)
    · exact not_lt.mp h1
    · exact not_lt.mp h2
    · exact not_lt.mp h3

/-- C1 counterexample: at input 10^15 (the smallest saturating magnitude)
`format_number` does not return the value scaled by 10^12 with suffix "T":
it returns "1.0T" (the value scaled by 10^15), not "1000.0T". -/
theorem saturation_scale_counterexample :
    ¬ format_number (some ((10:ℚ)^15))
        = formatFixed ((10:ℚ)^15 / 10^12) 1 ++ "T" := by
  with_unfolding_all decide

/-- C1 amended: for every value of absolute value at least 10^15 (suffixes
exhausted), `format_number` returns the value scaled by 10^15 — not 10^12 —
rendered with one fractional digit, followed by "T". -/
theorem saturation_scale (v : ℚ) (h : (10:ℚ)^15 ≤ |v|) :
    format_number (some v) = formatFixed (v / 10^15) 1 ++ "T" := by
  have base : format_number (some v) = formatNumberGo v unitsList := rfl
  rw [base, go_all_ge]
  · have e : ((1000:ℚ)) ^ (unitsList.length) = 10 ^ 15 := by
      norm_num [unitsList]
    rw [e]
  · intro k hk
    rw [abs_div_pow, not_lt, le_div_iff₀ (pow_pos (by norm_num) _)]
    have hk5 : k + 1 ≤ 5 := by simp [unitsList] at hk; omega
    calc (1000:ℚ) * 1000 ^ k = 1000 ^ (k + 1) := (pow_succ' 1000 k).symm
      _ ≤ 1000 ^ 5 := pow_le_pow_right₀ (by norm_num) hk5
      _ = 10 ^ 15 := by norm_num
      _ ≤ |v| := h

/-- Witness for the amended C1 at the concrete input 10^15. -/
theorem saturation_scale_witness :
    (10:ℚ)^15 ≤ |(10:ℚ)^15|
      ∧ format_number (some ((10:ℚ)^15)) = formatFixed ((10:ℚ)^15 / 10^15) 1 ++ "T" := by
  have h : (10:ℚ)^15 ≤ |(10:ℚ)^15| := by
    rw [abs_of_pos (by positivity)]
  exact ⟨h, saturation_scale ((10:ℚ)^15) h⟩

/-- C3: below the saturation threshold the loop divides by 1000 exactly
`divCount v` times (at most four), `divCount v` is the least number of
divisions bringing the absolute value below 1000, and the result is the
divided value rendered with one fractional digit and the reached suffix;
together with the spec's five example evaluations. -/
theorem format_number_magnitude (v : ℚ) (h : |v| < 1000 ^ 5) :
    (format_number (some v)
        = formatFixed (v / 1000 ^ divCount v) 1 ++ unitsList.getD (divCount v) ""
      ∧ divCount v ≤ 4
      ∧ |v / 1000 ^ divCount v| < 1000
      ∧ (∀ j, j < divCount v → 1000 ≤ |v / 1000 ^ j|))
    ∧ format_number (some 999) = "999.0"
    ∧ format_number (some 1000) = "1.0K"
    ∧ format_number (some 1500000) = "1.5M"
    ∧ format_number (some 2340000000) = "2.3B"
    ∧ format_number (some (-5000)) = "-5.0K" := by
  refine ⟨⟨?_, divCount_le v, divCount_lt v h, divCount_min v⟩, ?_, ?_, ?_, ?_, ?_⟩
  · exact go_spec unitsList v (divCount v)
      (by have := divCount_le v; simp [unitsList]; omega)
      (divCount_lt v h) (divCount_min v)
  · with_unfolding_all decide
  · with_unfolding_all decide
  · with_unfolding_all decide
  · with_unfolding_all decide
  · with_unfolding_all decide

/-- Witness for C3 at the concrete input 1500000. -/
theorem format_number_magnitude_witness :
    |(1500000 : ℚ)| < 1000 ^ 5
      ∧ format_number (some (1500000 : ℚ))
          = formatFixed ((1500000 : ℚ) / 1000 ^ divCount 1500000) 1
              ++ unitsList.getD (divCount (1500000 : ℚ)) "" := by
  have h : |(1500000 : ℚ)| < 1000 ^ 5 := by
    rw [abs_of_pos (by norm_num)]
    norm_num
  exact ⟨h, (format_number_magnitude 1500000 h).1.1⟩

lemma str_ext : ∀ {a b : String}, a.data = b.data → a = b
  | ⟨_⟩, ⟨_⟩, rfl => rfl

lemma data_empty : ("" : String).data = [] := rfl

lemma dot_mem_formatFixed (q : ℚ) (p : ℕ) : '.' ∈ (formatFixed q p).data := by
  have hd : ('.' : Char) ∈ ("." : String).data := by decide
  simp only [formatFixed, String.data_append]
  exact List.mem_append_left _ (List.mem_append_right _ hd)

/-- Every result of the unit loop is a fixed-point rendering followed by a
suffix. -/
lemma go_shape (us : List String) (v : ℚ) :
    ∃ q u, formatNumberGo v us = formatFixed q 1 ++ u := by
  induction us generalizing v with
  | nil => exact ⟨v, "T", rfl⟩
  | cons u us ih =>
    by_cases h : |v| < 1000
    · exact ⟨v, u, step_lt h⟩
    · obtain ⟨q, u', e⟩ := ih (v / 1000)
      exact ⟨q, u', by rw [step_ge h, e]⟩

lemma ne_NA_of_dot {s : String} (h : '.' ∈ s.data) : s ≠ "N/A" := by
  intro e
  rw [e] at h
  exact absurd h (by decide)

lemma format_number_some_ne (v : ℚ) : format_number (some v) ≠ "N/A" := by
  obtain ⟨q, u, e⟩ := go_shape unitsList v
  show formatNumberGo v unitsList ≠ "N/A"
  rw [e]
  apply ne_NA_of_dot
  rw [String.data_append]
  exact List.mem_append_left _ (dot_mem_formatFixed q 1)

lemma format_percentage_some_ne (v : ℚ) : format_percentage (some v) ≠ "N/A" := by
  show formatFixed (v * 100) 2 ++ "%" ≠ "N/A"
  apply ne_NA_of_dot
  rw [String.data_append]
  exact List.mem_append_left _ (dot_mem_formatFixed (v * 100) 2)

lemma format_pe_ratio_some_ne (v : ℚ) : format_pe_ratio (some v) ≠ "N/A" := by
  show formatFixed v 2 ++ "X" ≠ "N/A"
  apply ne_NA_of_dot
  rw [String.data_append]
  exact List.mem_append_left _ (dot_mem_formatFixed v 2)

/-- C4: each formatter returns "N/A" exactly on the missing sentinel `none`,
and numeric zero is a present value: `format_number (some 0) = "0.0"`. -/
theorem formatters_na_iff :
    (∀ x : Option ℚ, format_number x = "N/A" ↔ x = none)
      ∧ (∀ x : Option ℚ, format_percentage x = "N/A" ↔ x = none)
      ∧ (∀ x : Option ℚ, format_pe_ratio x = "N/A" ↔ x = none)
      ∧ format_number (some 0) = "0.0" := by
  refine ⟨?_, ?_, ?_, by with_unfolding_all decide⟩
  · intro x
    cases x with
    | none => exact ⟨fun _ => rfl, fun _ => rfl⟩
    | some v =>
      exact ⟨fun h => absurd h (format_number_some_ne v), fun h => Option.noConfusion h⟩
  · intro x
    cases x with
    | none => exact ⟨fun _ => rfl, fun _ => rfl⟩
    | some v =>
      exact ⟨fun h => absurd h (format_percentage_some_ne v), fun h => Option.noConfusion h⟩
  · intro x
    cases x with
    | none => exact ⟨fun _ => rfl, fun _ => rfl⟩
    | some v =>
      exact ⟨fun h => absurd h (format_pe_ratio_some_ne v), fun h => Option.noConfusion h⟩

/-- Witness for C4 at the concrete inputs `some 0` and `none`. -/
theorem formatters_na_iff_witness :
    format_number (some (0:ℚ)) ≠ "N/A" ∧ format_number (none : Option ℚ) = "N/A" :=
  ⟨fun h => Option.noConfusion ((formatters_na_iff.1 (some 0)).mp h),
   (formatters_na_iff.1 none).mpr rfl⟩

lemma rnd_int (z : ℤ) : rnd (z : ℚ) = z := by
  simp only [rnd, Int.fract_intCast, Int.floor_intCast]
  norm_num

lemma rnd_neg (x : ℚ) : rnd (-x) = - rnd x := by
  by_cases h0 : Int.fract x = 0
  · have hx : x = (⌊x⌋ : ℚ) := by
      have h1 : x - (⌊x⌋ : ℚ) = 0 := h0
      linarith
    rw [hx, ← Int.cast_neg, rnd_int, rnd_int]
  · have hf0 : 0 < Int.fract x := lt_of_le_of_ne (Int.fract_nonneg x) (Ne.symm h0)
    have hf1 : Int.fract x < 1 := Int.fract_lt_one x
    have hneg : Int.fract (-x) = 1 - Int.fract x := Int.fract_neg h0
    have hfx : Int.fract x = x - (⌊x⌋ : ℚ) := rfl
    have hfloor : ⌊-x⌋ = -⌊x⌋ - 1 := by
      rw [Int.floor_eq_iff]
      constructor
      · push_cast
        rw [hfx] at hf1
        linarith
      · push_cast
        rw [hfx] at hf0
        linarith
    rcases lt_trichotomy (Int.fract x) (1/2 : ℚ) with hlt | heq | hgt
    · have h1 : ¬ Int.fract (-x) < 1/2 := by rw [hneg]; intro hc; linarith
      have h2 : 1/2 < Int.fract (-x) := by rw [hneg]; linarith
      simp only [rnd, if_neg h1, if_pos h2, if_pos hlt, hfloor]
      ring
    · have h1 : ¬ Int.fract x < 1/2 := by rw [heq]; norm_num
      have h2 : ¬ 1/2 < Int.fract x := by rw [heq]; norm_num
      have h3 : ¬ Int.fract (-x) < 1/2 := by rw [hneg, heq]; norm_num
      have h4 : ¬ 1/2 < Int.fract (-x) := by rw [hneg, heq]; norm_num
      simp only [rnd, if_neg h1, if_neg h2, if_neg h3, if_neg h4, hfloor]
      by_cases hp : ⌊x⌋ % 2 = 0
      · rw [if_pos hp, if_neg (by omega)]
        omega
      · rw [if_neg hp, if_pos (by omega)]
        omega
    · have h1 : Int.fract (-x) < 1/2 := by rw [hneg]; linarith
      have h2 : ¬ Int.fract x < 1/2 := by intro hc; linarith
      simp only [rnd, if_pos h1, if_neg h2, if_pos hgt, hfloor]
      ring

lemma formatFixed_neg (p : ℕ) {q : ℚ} (h : 0 < q) :
    formatFixed (-q) p = "-" ++ formatFixed q p := by
  apply str_ext
  have e1 : rnd (-q * (10:ℚ)^p) = - rnd (q * 10^p) := by rw [neg_mul, rnd_neg]
  have hneg : (-q) < 0 := neg_lt_zero.mpr h
  have hnot : ¬ q < 0 := not_lt.mpr h.le
  simp only [formatFixed, String.data_append, e1, Int.natAbs_neg, if_pos hneg, if_neg hnot]
  simp [data_empty, List.append_assoc]

lemma go_neg (us : List String) (v : ℚ) (h : 0 < v) :
    formatNumberGo (-v) us = "-" ++ formatNumberGo v us := by
  induction us generalizing v with
  | nil =>
    show formatFixed (-v) 1 ++ "T" = "-" ++ (formatFixed v 1 ++ "T")
    rw [formatFixed_neg 1 h, String.append_assoc]
  | cons u us ih =>
    by_cases hlt : |v| < 1000
    · have hlt' : |(-v)| < 1000 := by rwa [abs_neg]
      rw [step_lt hlt, step_lt hlt', formatFixed_neg 1 h, String.append_assoc]
    · have hlt' : ¬ |(-v)| < 1000 := by rwa [abs_neg]
      rw [step_ge hlt, step_ge hlt', neg_div, ih (v / 1000) (by positivity)]

/-- C8: for every positive value, formatting the negation prepends a "-" to
the formatting of the value: the suffix choice depends only on the absolute
value and the sign shows up only in the rendered digits. -/
theorem format_number_sign (v : ℚ) (h : 0 < v) :
    format_number (some (-v)) = "-" ++ format_number (some v) :=
  go_neg unitsList v h

/-- Witness for C8 at the concrete input 5000. -/
theorem format_number_sign_witness :
    (0:ℚ) < 5000
      ∧ format_number (some (-5000 : ℚ)) = "-" ++ format_number (some (5000 : ℚ)) :=
  ⟨by norm_num, format_number_sign 5000 (by norm_num)⟩

lemma natStrGo_length :
    ∀ (f n k : ℕ), n < f → n < 10 ^ k → 1 ≤ k → (natStrGo f n).length ≤ k := by
  intro f
  induction f with
  | zero => intro n k h; omega
  | succ f ih =>
    intro n k hf hk hk1
    by_cases h : n < 10
    · simp only [natStrGo, if_pos h, List.length_singleton]
      exact hk1
    · simp only [natStrGo, if_neg h, List.length_append, List.length_singleton]
      have hk2 : 2 ≤ k := by
        by_contra hc
        have hk1' : k = 1 := by omega
        rw [hk1', pow_one] at hk
        omega
      have hdiv10 : n / 10 < 10 ^ (k - 1) := by
        rw [Nat.div_lt_iff_lt_mul (by norm_num)]
        have e : 10 ^ (k - 1) * 10 = 10 ^ k := by
          rw [← pow_succ]
          congr 1
          omega
        rw [e]
        exact hk
      have hfuel : n / 10 < f := by
        have h1 : n / 10 < n := Nat.div_lt_self (by omega) (by norm_num)
        omega
      have := ih (n / 10) (k - 1) hfuel hdiv10 (by omega)
      omega

lemma natStr_length {n k : ℕ} (hk : 1 ≤ k) (h : n < 10 ^ k) : (natStr n).length ≤ k := by
  show (natStrGo (n + 1) n).length ≤ k
  exact natStrGo_length (n + 1) n k (Nat.lt_succ_self n) h hk

lemma padZeros_length {s : String} {w : Nat} (h : s.length ≤ w) : (padZeros s w).length = w := by
  show (List.replicate (w - s.length) '0' ++ s.data).length = w
  rw [List.length_append, List.length_replicate]
  have e : s.data.length = s.length := rfl
  omega

/-- A fixed-point rendering with `p ≥ 1` splits at a decimal point with
exactly `p` fractional digits. -/
lemma formatFixed_shape (q : ℚ) (p : ℕ) (hp : 1 ≤ p) :
    ∃ a b : String, formatFixed q p = a ++ "." ++ b ∧ b.length = p := by
  refine ⟨(if q < 0 then "-" else "") ++ natStr ((rnd (q * (10:ℚ) ^ p)).natAbs / 10 ^ p),
          padZeros (natStr ((rnd (q * (10:ℚ) ^ p)).natAbs % 10 ^ p)) p, rfl, ?_⟩
  apply padZeros_length
  apply natStr_length hp
  exact Nat.mod_lt _ (pow_pos (by norm_num) p)

/-- C6: for every present value, `format_percentage` is the value times 100,
rendered with exactly two fractional digits (a decimal point followed by a
two-character fractional part), with "%" appended and no clamping to [0, 1];
with the spec's example evaluations and an unclamped value above 1. -/
theorem format_percentage_spec :
    (∀ v : ℚ, format_percentage (some v) = formatFixed (v * 100) 2 ++ "%"
      ∧ ∃ a b : String, format_percentage (some v) = a ++ "." ++ b ++ "%" ∧ b.length = 2)
    ∧ format_percentage (some ((1534:ℚ) / 10000)) = "15.34%"
    ∧ format_percentage (some ((-2:ℚ) / 100)) = "-2.00%"
    ∧ format_percentage (some ((3:ℚ) / 2)) = "150.00%" := by
  refine ⟨fun v => ⟨rfl, ?_⟩, ?_, ?_, ?_⟩
  · obtain ⟨a, b, e, hb⟩ := formatFixed_shape (v * 100) 2 (by norm_num)
    exact ⟨a, b,
      by rw [show format_percentage (some v) = formatFixed (v * 100) 2 ++ "%" from rfl, e], hb⟩
  · with_unfolding_all decide
  · with_unfolding_all decide
  · with_unfolding_all decide

/-- Witness for C6 at the concrete input 0.1534. -/
theorem format_percentage_spec_witness :
    format_percentage (some ((1534:ℚ) / 10000)) = "15.34%" :=
  format_percentage_spec.2.1

/-- C7: for every present value, `format_pe_ratio` renders the value with
exactly two fractional digits and appends "X"; with the spec's example. -/
theorem format_pe_ratio_spec :
    (∀ v : ℚ, format_pe_ratio (some v) = formatFixed v 2 ++ "X"
      ∧ ∃ a b : String, format_pe_ratio (some v) = a ++ "." ++ b ++ "X" ∧ b.length = 2)
    ∧ format_pe_ratio (some ((23456:ℚ) / 1000)) = "23.46X" := by
  refine ⟨fun v => ⟨rfl, ?_⟩, ?_⟩
  · obtain ⟨a, b, e, hb⟩ := formatFixed_shape v 2 (by norm_num)
    exact ⟨a, b,
      by rw [show format_pe_ratio (some v) = formatFixed v 2 ++ "X" from rfl, e], hb⟩
  · with_unfolding_all decide

/-- Witness for C7 at the concrete input 23.456. -/
theorem format_pe_ratio_spec_witness :
    format_pe_ratio (some ((23456:ℚ) / 1000)) = "23.46X" :=
  format_pe_ratio_spec.2

/-- Division with Python's ZeroDivisionError made explicit: the only
operation in the formatters that could raise. -/
def qdivE (a b : ℚ) : Except String ℚ :=
  if b = 0 then .error "ZeroDivisionError: float division by zero" else .ok (a / b)

/-- The `format_number` loop with exception propagation made explicit. -/
def formatNumberGoE : ℚ → List String → Except String String
  | n, [] => .ok (formatFixed n 1 ++ "T")
  | n, u :: us =>
    if |n| < 1000 then .ok (formatFixed n 1 ++ u)
    else
      match qdivE n 1000 with
      | .error e => .error e
      | .ok m => formatNumberGoE m us

/-- Exception-aware `format_number`. -/
def format_numberE : Option ℚ → Except String String
  | none => .ok "N/A"
  | some n => formatNumberGoE n unitsList

/-- Exception-aware `format_percentage` (its operations cannot raise). -/
def format_percentageE : Option ℚ → Except String String
  | none => .ok "N/A"
  | some n => .ok (formatFixed (n * 100) 2 ++ "%")

/-- Exception-aware `format_pe_ratio` (its operations cannot raise). -/
def format_pe_ratioE : Option ℚ → Except String String
  | none => .ok "N/A"
  | some n => .ok (formatFixed n 2 ++ "X")

lemma goE_ok (us : List String) (v : ℚ) :
    formatNumberGoE v us = .ok (formatNumberGo v us) := by
  induction us generalizing v with
  | nil => rfl
  | cons u us ih =>
    by_cases h : |v| < 1000
    · simp only [formatNumberGoE, if_pos h, step_lt h]
    · have e : qdivE v 1000 = .ok (v / 1000) := by
        rw [qdivE, if_neg (by norm_num : ¬ (1000:ℚ) = 0)]
      simp only [formatNumberGoE, if_neg h, e, step_ge h]
      exact ih (v / 1000)

/-- C5: the three formatters, with every fallible operation (the division in
the loop) made explicit, never raise: for every input, missing or numeric,
each returns exactly the string of the pure function. Determinism and absence
of side effects hold by construction of the embedding as plain functions. -/
theorem formatters_total :
    ∀ x : Option ℚ,
      format_numberE x = Except.ok (format_number x)
        ∧ format_percentageE x = Except.ok (format_percentage x)
        ∧ format_pe_ratioE x = Except.ok (format_pe_ratio x) := by
  intro x
  cases x with
  | none => exact ⟨rfl, rfl, rfl⟩
  | some v => exact ⟨goE_ok unitsList v, rfl, rfl⟩

/-- Witness for C5 at a concrete large input. -/
theorem formatters_total_witness :
    format_numberE (some ((10:ℚ)^18)) = Except.ok (format_number (some ((10:ℚ)^18))) :=
  (formatters_total (some ((10:ℚ)^18))).1

/-- Per-ticker data as fetched by yfinance in `src/chart.py`.  Each sub-fetch
may fail (network error, unknown ticker): that is the `Except.error` case,
which in Python surfaces as an exception inside the display function that
touches it.  Tables are abstracted to what the display code inspects: the
column names of `stock.financials`, the optional `earnings` and
`quarterly_earnings` tables with their column names, and the optional
`recommendations` table (with its row count).  The string-valued `sector`
field, passed through untouched by `display_stock_info`, is omitted. -/
structure TickerResponse where
  info : Except String (List (String × ℚ))
  financialsCols : Except String (List String)
  calendarCols : Except String (List String)
  earnings : Except String (Option (List String))
  quarterlyEarnings : Except String (Option (List String))
  recommendations : Except String (Option Nat)

/-- Python's `info.get(key)`: `None` when the key is absent. -/
def lookupInfo (kv : List (String × ℚ)) (k : String) : Option ℚ :=
  (kv.find? fun p => p.1 == k).map Prod.snd

/-- `display_finviz_chart`: pure rendering from the ticker alone; can never
fail. -/
def display_finviz_chart (t : String) : Except String (List String) :=
  .ok ["Finviz Chart Viewer", finviz_url t, t]

/-- `display_stock_info`: reads `stock.info` (a fetch that can fail) and
formats each field with `.get`, so absent fields become "N/A" and never
raise. -/
def display_stock_info (r : TickerResponse) : Except String (List String) :=
  match r.info with
  | .error e => .error e
  | .ok info =>
    .ok [ "Stock Information",
      "**Market Cap:** " ++ format_number (lookupInfo info "marketCap"),
      "**PE Ratio:** " ++ format_pe_ratio (lookupInfo info "trailingPE"),
      "**Forward PE:** " ++ format_pe_ratio (lookupInfo info "forwardPE"),
      "**Expected EPS Growth:** " ++ format_percentage (lookupInfo info "earningsGrowth"),
      "**Revenue:** " ++ format_number (lookupInfo info "totalRevenue"),
      "**Income:** " ++ format_number (lookupInfo info "netIncomeToCommon"),
      "**Outstanding Shares:** " ++ format_number (lookupInfo info "sharesOutstanding") ]

/-- `display_financials`: indexes `financials['Total Revenue']` and
`financials['Net Income']` unguarded, so a table missing either column
raises `KeyError` (the `.error` case), in that order. -/
def display_financials (r : TickerResponse) : Except String (List String) :=
  match r.financialsCols with
  | .error e => .error e
  | .ok cols =>
    if "Total Revenue" ∈ cols then
      if "Net Income" ∈ cols then .ok ["Financials", "financials table"]
      else .error "KeyError: Net Income"
    else .error "KeyError: Total Revenue"

/-- `display_calendar_and_expectations`: fetches calendar, earnings and
quarterly earnings; the `Revenue`/`Earnings` column accesses are guarded by
`in ... .columns` checks and `is not None`, so only the fetches themselves
can fail. -/
def display_calendar_and_expectations (r : TickerResponse) : Except String (List String) :=
  match r.calendarCols with
  | .error e => .error e
  | .ok _ =>
    match r.earnings with
    | .error e => .error e
    | .ok earnings =>
      match r.quarterlyEarnings with
      | .error e => .error e
      | .ok qearnings =>
        .ok (["Calendar", "calendar table"]
          ++ (match earnings with | some _ => ["earnings table"] | none => [])
          ++ (match qearnings with | some _ => ["quarterly earnings table"] | none => []))

/-- `display_analyst_rating`: a `None` recommendations table is handled with
the "No analyst rating available." message; only the fetch itself can
fail. -/
def display_analyst_rating (r : TickerResponse) : Except String (List String) :=
  match r.recommendations with
  | .error e => .error e
  | .ok (some _) => .ok ["Analyst Rating", "ratings table"]
  | .ok none => .ok ["No analyst rating available."]

/-- One iteration of the `for ticker in tickers` loop in `__main__`: the five
display calls in source order, an exception in any of them aborting the
iteration (there is no try/except in `src/chart.py`). -/
def renderTicker (t : String) (r : TickerResponse) : Except String (List String) :=
  match display_finviz_chart t with
  | .error e => .error e
  | .ok l1 =>
    match display_stock_info r with
    | .error e => .error e
    | .ok l2 =>
      match display_financials r with
      | .error e => .error e
      | .ok l3 =>
        match display_calendar_and_expectations r with
        | .error e => .error e
        | .ok l4 =>
          match display_analyst_rating r with
          | .error e => .error e
          | .ok l5 => .ok (l1 ++ l2 ++ l3 ++ l4 ++ l5 ++ ["---"])

/-- The `for ticker in tickers` loop: the first component lists the tickers
whose `## <ticker>` header was rendered (Streamlit renders output as it is
produced, and the header precedes the display calls); the second is the
uncaught exception, if any, which aborts the whole script run so later
tickers are never processed. -/
def mainLoop (fetch : String → TickerResponse) : List String → List String × Option String
  | [] => ([], none)
  | t :: ts =>
    match renderTicker t (fetch t) with
    | .ok _ => (t :: (mainLoop fetch ts).1, (mainLoop fetch ts).2)
    | .error e => ([t], some e)

/-- Whether an `Except` computation succeeded. -/
def exceptOk {ε α : Type} : Except ε α → Bool
  | .ok _ => true
  | .error _ => false

/-- A fully well-formed response: every fetch succeeds and every expected
column is present. -/
def okResponse : TickerResponse where
  info := .ok [("marketCap", 1500000)]
  financialsCols := .ok ["Total Revenue", "Net Income"]
  calendarCols := .ok ["Earnings Date"]
  earnings := .ok (some ["Revenue", "Earnings"])
  quarterlyEarnings := .ok (some ["Revenue", "Earnings"])
  recommendations := .ok (some 10)

/-- A malformed response: the financial-statements table lacks the expected
`Total Revenue` and `Net Income` columns. -/
def badFinancials : TickerResponse :=
  { okResponse with financialsCols := .ok ["Open", "Close"] }

/-- A fetch in which only the ticker "ZZZZ" is malformed. -/
def demoFetch (t : String) : TickerResponse :=
  if t = "ZZZZ" then badFinancials else okResponse

/-- C2 counterexample: with selection ["AAPL", "ZZZZ", "MSFT"] and a
malformed financials table for "ZZZZ" alone, the number of rendered ticker
sections is not the number of selected tickers: the KeyError raised inside
`display_financials` for "ZZZZ" aborts the run before "MSFT". -/
theorem orchestration_counterexample :
    ¬ ((mainLoop demoFetch ["AAPL", "ZZZZ", "MSFT"]).1.length
        = (["AAPL", "ZZZZ", "MSFT"] : List String).length) := by
  with_unfolding_all decide

/-- C2 amended: only when every selected ticker's five display calls succeed
do the rendered sections equal the selection in order with no uncaught
exception; a fetch failure or a financials table missing an expected column
raises an uncaught exception that stops the whole run. -/
theorem orchestration_amended (fetch : String → TickerResponse) (ts : List String)
    (h : ∀ t ∈ ts, exceptOk (renderTicker t (fetch t)) = true) :
    (mainLoop fetch ts).1 = ts ∧ (mainLoop fetch ts).2 = none := by
  induction ts with
  | nil => exact ⟨rfl, rfl⟩
  | cons t ts ih =>
    have ht := h t (List.mem_cons_self t ts)
    cases e : renderTicker t (fetch t) with
    | error err => rw [e] at ht; simp [exceptOk] at ht
    | ok out =>
      have hrest := ih fun t' ht' => h t' (List.mem_cons_of_mem _ ht')
      simp only [mainLoop, e]
      exact ⟨by rw [hrest.1], hrest.2⟩

/-- Witness for the amended C2: a two-ticker selection whose fetches all
succeed renders both sections in order. -/
theorem orchestration_amended_witness :
    (∀ t ∈ (["AAPL", "MSFT"] : List String), exceptOk (renderTicker t (demoFetch t)) = true)
      ∧ (mainLoop demoFetch ["AAPL", "MSFT"]).1 = ["AAPL", "MSFT"] := by
  have h : ∀ t ∈ (["AAPL", "MSFT"] : List String),
      exceptOk (renderTicker t (demoFetch t)) = true := by
    with_unfolding_all decide
  exact ⟨h, (orchestration_amended demoFetch ["AAPL", "MSFT"] h).1⟩

/-- C10: there is an input of absolute value strictly below 1000 (namely
999.97) on which `format_number` returns "1000.0" with the empty suffix,
because rounding to one fractional digit happens after the magnitude check. -/
theorem format_number_rounds_to_1000 :
    |(99997 : ℚ) / 100| < 1000 ∧ format_number (some ((99997 : ℚ) / 100)) = "1000.0" := by
  constructor
  · rw [abs_div]
    norm_num
  · with_unfolding_all decide

end Chart
